import Mathlib

/-!
Verification development for the session-scoped execution engine
(`src/solver/backend/executor.py` and `src/solver/backend/kernel_manager.py`).

The Python source is shallowly embedded: the global `kernels` dict, the local
session directory tree, and the GCS bucket contents become fields of an explicit
`ServerState`; each endpoint becomes a pure function from state (plus request
data) to response and new state.  Python exceptions that escape a handler
(FastAPI `HTTPException`) are modelled with `Except`.  The Jupyter iopub stream
consumed by `PersistentKernel.execute_code` is passed in as an explicit list of
messages.
-/

namespace Spec2Proof

/-! ### Association-list helpers (Python `dict` / keyed collections) -/

/-- Lookup in an association list, mirroring `d[k]` / `k in d`. -/
def lookupA {α : Type} : List (String × α) → String → Option α
  | [], _ => none
  | p :: t, k => if p.1 = k then some p.2 else lookupA t k

/-- Remove every binding of a key, mirroring `d.pop(k, None)` / `del d[k]`. -/
def removeA {α : Type} (l : List (String × α)) (k : String) : List (String × α) :=
  l.filter (fun p => ¬ p.1 = k)

/-- Set a key, mirroring `d[k] = v`. -/
def insertA {α : Type} (l : List (String × α)) (k : String) (v : α) :
    List (String × α) :=
  removeA l k ++ [(k, v)]

/-! ### Kernel-side model: `kernel_manager.PersistentKernel.execute_code` -/

/-- One message from the kernel's iopub stream, with the fields
`execute_code` inspects (`msg_type`, `parent_header.msg_id`, and the
relevant parts of `content`). -/
structure IoMsg where
  msg_type : String
  parent_msg_id : Option String
  stream_name : String := ""
  text : String := ""
  traceback : List String := []
  data_png : Option String := none
  data_text : Option String := none
  execution_state : String := ""
deriving DecidableEq, Repr

/-- The three accumulators of the collection loop
(`output_text`, `error_text`, `plots`). -/
structure Collected where
  output_text : List String
  error_text : List String
  plots : List String
deriving DecidableEq, Repr

/-- Classification of a single already-matched message: the `if`/`elif`
chain of the loop body (stream / error / display_data / execute_result). -/
def processMsg (m : IoMsg) (acc : Collected) : Collected :=
  if m.msg_type = "stream" then
    if m.stream_name = "stdout" then
      { acc with output_text := acc.output_text ++ [m.text] }
    else if m.stream_name = "stderr" then
      { acc with error_text := acc.error_text ++ [m.text] }
    else acc
  else if m.msg_type = "error" then
    { acc with error_text := acc.error_text ++ [String.intercalate "\n" m.traceback] }
  else if m.msg_type = "display_data" ∨ m.msg_type = "execute_result" then
    match m.data_png with
    | some png => { acc with plots := acc.plots ++ [png] }
    | none =>
      match m.data_text with
      | some t =>
        if m.msg_type = "execute_result" then
          { acc with output_text := acc.output_text ++ [t ++ "\n"] }
        else acc
      | none => acc
  else acc

/-- Whether a message is the completion signal
(`msg_type == 'status' and content['execution_state'] == 'idle'`). -/
def isIdle (m : IoMsg) : Prop :=
  m.msg_type = "status" ∧ m.execution_state = "idle"

instance (m : IoMsg) : Decidable (isIdle m) := by
  unfold isIdle; infer_instance

/-- The `while True` collection loop of `execute_code`: messages whose
`parent_header.msg_id` differs from the current execution's `msg_id` are
skipped (`continue`) before any classification; a matching idle status
breaks the loop; stream exhaustion (`queue.Empty`) appends the
no-idle timeout note. -/
def collectLoop (msg_id : String) : List IoMsg → Collected → Collected
  | [], acc =>
    { acc with error_text :=
        acc.error_text ++ ["Timeout: Execution state 'idle' never reached."] }
  | m :: rest, acc =>
    if m.parent_msg_id = some msg_id then
      let acc' := processMsg m acc
      if isIdle m then acc' else collectLoop msg_id rest acc'
    else
      collectLoop msg_id rest acc

/-- Result dictionary built by `execute_code` (and, at the executor level,
returned from `/execute`).  Python result dicts do not all carry the same
keys, so `status` and `files` are optional. -/
structure FileRef where
  name : String
  gcs_path : String
deriving DecidableEq, Repr

structure ExecResult where
  status : Option String := none
  output : String
  error : String
  plots : List String
  files : Option (List FileRef) := none
deriving DecidableEq, Repr

/-- Kernel-process state: the fragments submitted so far (via `kc.execute`)
and whether the connection is usable. -/
structure KernelProc where
  executed : List String := []
  connected : Bool := true
deriving DecidableEq, Repr

/-- Python `str.strip()`: the string with leading and trailing whitespace
removed. -/
def pyStrip (s : String) : String :=
  String.mk (((s.data.dropWhile Char.isWhitespace).reverse.dropWhile
    Char.isWhitespace).reverse)

/-- The early-return result for blank code in `execute_code`. -/
def noCodeResult : ExecResult :=
  { output := "", error := "No code provided", plots := [], files := some [] }

/-- Embedding of `PersistentKernel.execute_code`.  The iopub messages the
kernel process would emit for this execution are supplied as `msgs`, and the
`msg_id` returned by `kc.execute` as `msg_id`. -/
def execute_code (st : KernelProc) (code_string : String) (is_init : Bool)
    (msgs : List IoMsg) (msg_id : String) : ExecResult × KernelProc :=
  if code_string = "" ∨ pyStrip code_string = "" then
    (noCodeResult, st)
  else
    let full_code :=
      if is_init then code_string else "import math as mathlib\n" ++ code_string
    if st.connected then
      let c := collectLoop msg_id msgs ⟨[], [], []⟩
      ({ output := String.join c.output_text,
         error := String.join c.error_text,
         plots := c.plots },
       { st with executed := st.executed ++ [full_code] })
    else
      ({ output := "", error := "Kernel connection error: connection closed",
         plots := [] }, st)

/-! ### Executor-side model: `executor.py` -/

/-- FastAPI `HTTPException(status_code=..., detail=...)`. -/
structure HTTPError where
  status_code : Nat
  detail : String
deriving DecidableEq, Repr

/-- One `PersistentKernel` as seen through the `kernels` dict: its
generation (which underlying kernel process instance it is on, bumped by
`restart`), the variables the current process has defined, and whether the
process is alive. -/
structure Worker where
  generation : Nat
  env : List String
  alive : Bool
deriving DecidableEq, Repr

/-- The local directory pair of one session
(`session_data/{sid}/uploads`, `session_data/{sid}/exports`) plus the
directory's modification time, which the janitor reads. -/
structure SessionDir where
  uploads : List (String × Nat) := []
  exports : List String := []
  mtime : Nat := 0
deriving DecidableEq, Repr

/-- One blob under `uploads/{session}/{filename}` in the GCS bucket. -/
structure GcsUpload where
  session : String
  filename : String
  size : Nat
deriving DecidableEq, Repr

/-- One blob under `outputs/{session}/...` in the GCS bucket. -/
structure GcsOutput where
  session : String
  key : String
deriving DecidableEq, Repr

/-- Whole-process state of the executor service: module flags
(`PersistentKernel is not None`, GCS client/bucket availability), the global
`kernels` dict, the `session_data` tree, and the bucket contents.
`uuidCounter` indexes the fresh-token supply modelling `uuid.uuid4()`. -/
structure ServerState where
  kernelAvailable : Bool := true
  gcsAvailable : Bool := true
  kernels : List (String × Worker) := []
  dirs : List (String × SessionDir) := []
  gcsUploads : List GcsUpload := []
  gcsOutputs : List GcsOutput := []
  uuidCounter : Nat := 0
deriving DecidableEq, Repr

def getDir (st : ServerState) (sid : String) : SessionDir :=
  (lookupA st.dirs sid).getD {}

def setDir (st : ServerState) (sid : String) (d : SessionDir) : ServerState :=
  { st with dirs := insertA st.dirs sid d }

def updateDir (st : ServerState) (sid : String) (f : SessionDir → SessionDir) :
    ServerState :=
  setDir st sid (f (getDir st sid))

/-- Embedding of `get_session_paths`: `os.makedirs(..., exist_ok=True)` on both
per-session directories. -/
def get_session_paths (st : ServerState) (sid : String) : ServerState :=
  match lookupA st.dirs sid with
  | some _ => st
  | none => setDir st sid {}

/-- Value of `STORAGE_LIMIT_BYTES = 1.5 * 1024 * 1024 * 1024` (an exact float). -/
def STORAGE_LIMIT_BYTES : Nat := 1610612736

/-- Embedding of `get_session_gcs_usage`: sums the sizes of the session's blobs under
`uploads/{sid}/`; 0 when the client or bucket is unavailable. -/
def get_session_gcs_usage (st : ServerState) (sid : String) : Nat :=
  if st.gcsAvailable then
    ((st.gcsUploads.filter (fun b => b.session = sid)).map (fun b => b.size)).sum
  else 0

/-- Embedding of `sync_uploads_from_gcs`: copy each `uploads/{sid}/` blob into the local
uploads directory unless a local file of the same name and size exists.
Purely additive on local inputs. -/
def sync_uploads_from_gcs (st : ServerState) (sid : String) : ServerState :=
  if st.gcsAvailable then
    let blobs := st.gcsUploads.filter (fun b => b.session = sid)
    updateDir st sid (fun d =>
      { d with uploads :=
          blobs.foldl (fun u b =>
            if lookupA u b.filename = some b.size then u
            else insertA u b.filename b.size) d.uploads })
  else st

/-- The export-clearing loop at step 2 of `/execute`: unlink every file and
remove every subtree of the exports directory. -/
def clearExports (st : ServerState) (sid : String) : ServerState :=
  updateDir st sid (fun d => { d with exports := [] })

/-- Fresh-token supply modelling `uuid.uuid4().hex[:8]`: the source draws a
fresh random token for each exported file; the freshness of the draws is
modelled by an injective, underscore-free, counter-indexed supply. -/
def run_token (n : Nat) : String :=
  String.mk (List.replicate (n + 1) 'r')

/-- Remote key chosen for an exported file:
`outputs/{session_id}/{run_id}_{filename}`. -/
def exportKey (sid : String) (ctr : Nat) (filename : String) : String :=
  "outputs/" ++ sid ++ "/" ++ run_token ctr ++ "_" ++ filename

/-- The per-file upload loop of `upload_exports_to_gcs` when GCS is
available: each file gets a fresh `run_id` and its blob is created.
Returns the `exported` list, the new bucket blobs, and the next counter. -/
def uploadLoop (sid : String) : Nat → List String → List FileRef × List GcsOutput × Nat
  | ctr, [] => ([], [], ctr)
  | ctr, f :: rest =>
    let key := exportKey sid ctr f
    let r := uploadLoop sid (ctr + 1) rest
    ({ name := f, gcs_path := key } :: r.1,
     { session := sid, key := key } :: r.2.1, r.2.2)

/-- Embedding of `upload_exports_to_gcs`: lists the files in the exports directory; with
GCS available uploads each under a fresh key, otherwise returns
local-only references whose `gcs_path` is `"local_test_mode"`. -/
def upload_exports_to_gcs (st : ServerState) (sid : String) :
    List FileRef × ServerState :=
  let files := (getDir st sid).exports
  if files = [] then ([], st)
  else if st.gcsAvailable then
    let r := uploadLoop sid st.uuidCounter files
    (r.1, { st with gcsOutputs := st.gcsOutputs ++ r.2.1, uuidCounter := r.2.2 })
  else
    (files.map (fun f => { name := f, gcs_path := "local_test_mode" }), st)

/-- Embedding of `get_kernel`: raises HTTP 503 when the kernel manager module failed to
import; otherwise returns the session's kernel from the global dict,
creating one only when no entry exists (liveness is not checked). -/
def get_kernel (st : ServerState) (sid : String) :
    Except HTTPError (Worker × ServerState) :=
  if ¬ st.kernelAvailable then
    .error ⟨503, "Kernel manager not available — check container logs"⟩
  else
    match lookupA st.kernels sid with
    | some w => .ok (w, st)
    | none =>
      let w : Worker := ⟨0, [], true⟩
      .ok (w, { st with kernels := insertA st.kernels sid w })

/-- Response body of a successful `/upload`. -/
structure UploadResponse where
  status : String
  filename : String
  path : String
deriving DecidableEq, Repr

/-- Embedding of the `/upload` endpoint: with GCS unavailable, it falls back to an unchecked local save;
with GCS available, checks the session's usage against
`STORAGE_LIMIT_BYTES` before writing the blob and rejects with HTTP 413
when the new file would exceed it. -/
def upload_file (st : ServerState) (sid filename : String) (contentSize : Nat) :
    Except HTTPError UploadResponse × ServerState :=
  if filename = "" then (.error ⟨400, "Empty filename"⟩, st)
  else if ¬ st.gcsAvailable then
    let st := get_session_paths st sid
    let st := updateDir st sid (fun d =>
      { d with uploads := insertA d.uploads filename contentSize })
    (.ok ⟨"success", filename, "uploads/" ++ filename⟩, st)
  else
    let current_usage := get_session_gcs_usage st sid
    if current_usage + contentSize > STORAGE_LIMIT_BYTES then
      (.error ⟨413, "Session storage limit (1.5GB) exceeded."⟩, st)
    else
      let st := { st with gcsUploads :=
        (st.gcsUploads.filter (fun b => ¬ (b.session = sid ∧ b.filename = filename)))
          ++ [⟨sid, filename, contentSize⟩] }
      (.ok ⟨"success", filename, "uploads/" ++ filename⟩, st)

/-- Error message of the `/execute` timeout branch. -/
def timeoutMessage (t : Nat) : String :=
  "Code execution timed out after " ++ toString t ++ " seconds."

/-- Outcome of racing `session_kernel.execute_code(request.code)` against
`request.timeout`: either the kernel produced a result dict, having left the
kernel namespace with environment `newEnv` and written `filesWritten` into
the exports directory, or `asyncio.TimeoutError` fired. -/
inductive RunOutcome
  | completed (r : ExecResult) (newEnv : List String) (filesWritten : List String)
  | timedOut
deriving DecidableEq, Repr

/-- Embedding of the `/execute` endpoint.  Steps follow the source: sync uploads, clear exports, get
the kernel (an `HTTPError` from `get_kernel` propagates — it is raised
outside the `try`), run the code under the deadline, then either harvest
exports into the result or, on timeout, restart the kernel (fresh process:
generation bumped, environment emptied) and return the timeout result. -/
def execute (st : ServerState) (sid code : String) (timeout : Nat)
    (outcome : RunOutcome) : Except HTTPError ExecResult × ServerState :=
  let st := get_session_paths st sid
  let st := sync_uploads_from_gcs st sid
  let st := clearExports st sid
  match get_kernel st sid with
  | .error e => (.error e, st)
  | .ok (w, st) =>
    match outcome with
    | .completed r newEnv filesWritten =>
      let st2 := updateDir st sid (fun d => { d with exports := filesWritten })
      let harvested := upload_exports_to_gcs st2 sid
      (.ok { r with files := some harvested.1 },
       { harvested.2 with
          kernels := insertA harvested.2.kernels sid { w with env := newEnv } })
    | .timedOut =>
      let st := { st with kernels := insertA st.kernels sid ⟨w.generation + 1, [], true⟩ }
      (.ok { status := some "error", output := "", error := timeoutMessage timeout,
             plots := [], files := some [] }, st)

/-- Response body of `/cleanup/{session_id}`. -/
structure CleanupResponse where
  status : String
  message : String
deriving DecidableEq, Repr

/-- Number of blobs the GCS deletion loop of `/cleanup/{session_id}` visits
(both the `uploads/{sid}/` and `outputs/{sid}/` prefixes). -/
def gcsBlobCount (st : ServerState) (sid : String) : Nat :=
  (st.gcsUploads.filter (fun b => b.session = sid)).length
    + (st.gcsOutputs.filter (fun b => b.session = sid)).length

/-- The `cleaned` markers accumulated by `/cleanup/{session_id}`: `"kernel"`
when a kernel was registered, `"local_files"` when the session tree existed,
and the GCS deletion count when the client is available and deleted
anything. -/
def cleanedMarkers (st : ServerState) (sid : String) : List String :=
  (if (lookupA st.kernels sid).isSome then ["kernel"] else []) ++
  (if (lookupA st.dirs sid).isSome then ["local_files"] else []) ++
  (if st.gcsAvailable ∧ 0 < gcsBlobCount st sid then
    ["gcs(" ++ toString (gcsBlobCount st sid) ++ " files)"] else [])

/-- Embedding of the `/cleanup/{session_id}` endpoint: pop and shut down the kernel, delete the local
session tree, delete the session's GCS blobs; every step is guarded, and
the response status is unconditionally `"success"`.  The source performs
the three steps in sequence; they touch disjoint state fields, so the
embedding evaluates each step's condition against the entry state. -/
def cleanup_session (st : ServerState) (sid : String) :
    CleanupResponse × ServerState :=
  let cleaned := cleanedMarkers st sid
  let message :=
    if cleaned = [] then "Nothing to clean"
    else "Cleaned: " ++ String.intercalate ", " cleaned
  (⟨"success", message⟩,
   { st with
      kernels := removeA st.kernels sid,
      dirs := removeA st.dirs sid,
      gcsUploads := if st.gcsAvailable then
        st.gcsUploads.filter (fun b => ¬ b.session = sid) else st.gcsUploads,
      gcsOutputs := if st.gcsAvailable then
        st.gcsOutputs.filter (fun b => ¬ b.session = sid) else st.gcsOutputs })

/-- Retention window of the janitor: `max_age = 24 * 3600`. -/
def MAX_AGE : Nat := 24 * 3600

/-- The `stale_sessions` list computed by one pass of `cleanup_old_sessions`:
session directories whose modification time is older than `now - max_age`. -/
def staleSessions (st : ServerState) (now : Nat) : List String :=
  (st.dirs.filter
    (fun p => (p.2.mtime : Int) < (now : Int) - (MAX_AGE : Int))).map (fun p => p.1)

/-- One pass of the `cleanup_old_sessions` loop body at wall-clock `now`:
list the session directories, mark those whose modification time is older
than `now - max_age`, then clean each up via `cleanup_session`. -/
def janitorTick (st : ServerState) (now : Nat) : ServerState :=
  (staleSessions st now).foldl (fun s sid => (cleanup_session s sid).2) st

/-! ### Substring occurrence (used to read error messages) -/

/-- Whether `pat` is a leading run of `l`. -/
def leadMatch : List Char → List Char → Bool
  | [], _ => true
  | _ :: _, [] => false
  | a :: as, b :: bs => a = b && leadMatch as bs

/-- Whether `pat` occurs contiguously anywhere in `l`. -/
def containsAux (pat : List Char) : List Char → Bool
  | [] => leadMatch pat []
  | c :: rest => leadMatch pat (c :: rest) || containsAux pat rest

/-- Whether the string `s` contains `pat` as a contiguous substring. -/
def strContains (s pat : String) : Bool :=
  containsAux pat.data s.data

/-! ### Interleaving model for concurrent `/execute` requests

The `/execute` coroutine body (`executor.py`, `execute`) contains exactly one
suspension point: the `await asyncio.wait_for(...)` around the submitted
code.  Under the asyncio event loop, everything from entry (sync, clear,
`get_kernel`, the `os.chdir` submission, and handing the code to the kernel)
up to that `await` runs as one atomic segment, and everything after the
`await` resumes as a second atomic segment.  There is no lock anywhere in
the handler.  A run of the service on concurrent requests is therefore any
interleaving of each request's two segments. -/

/-- The two atomic segments of one `/execute` request: `seg0` ends at the
`await asyncio.wait_for` (by which point the code has been submitted to the
session's kernel), `seg1` is the resumption after the kernel finishes. -/
inductive Segment
  | seg0
  | seg1
deriving DecidableEq, Repr

/-- A scheduling event: request `req` ran segment `seg`. -/
structure SchedEv where
  req : Nat
  seg : Segment
deriving DecidableEq, Repr

/-- The segment sequence of one `/execute` request. -/
def requestSegs (r : Nat) : List SchedEv :=
  [⟨r, .seg0⟩, ⟨r, .seg1⟩]

/-- A trace is a run of the service on requests 1 and 2 when it is an
interleaving of their segment sequences. -/
def isSchedule (tr : List SchedEv) : Prop :=
  tr.filter (fun e => e.req = 1) = requestSegs 1 ∧
  tr.filter (fun e => e.req = 2) = requestSegs 2 ∧
  ∀ e ∈ tr, e.req = 1 ∨ e.req = 2

instance (tr : List SchedEv) : Decidable (isSchedule tr) := by
  unfold isSchedule; infer_instance

/-- After the events of `p`, request `r`'s submission is in flight against
the worker: its code has been handed to the kernel (`seg0` ran) and its
collection has not finished (`seg1` has not run). -/
def inFlight (p : List SchedEv) (r : Nat) : Prop :=
  (⟨r, .seg0⟩ : SchedEv) ∈ p ∧ (⟨r, .seg1⟩ : SchedEv) ∉ p

instance (p : List SchedEv) (r : Nat) : Decidable (inFlight p r) := by
  unfold inFlight; infer_instance

/-- Both requests are simultaneously in flight against the session's worker. -/
def bothInFlight (p : List SchedEv) : Prop :=
  inFlight p 1 ∧ inFlight p 2

instance (p : List SchedEv) : Decidable (bothInFlight p) := by
  unfold bothInFlight; infer_instance

/-! ### Association-list lemmas -/

theorem lookupA_append_left_none {α : Type} (l1 l2 : List (String × α)) (k : String)
    (h : lookupA l1 k = none) : lookupA (l1 ++ l2) k = lookupA l2 k := by
  induction l1 with
  | nil => rfl
  | cons p t ih =>
    by_cases hp : p.1 = k
    · simp [lookupA, hp] at h
    · simp only [lookupA, if_neg hp] at h
      simpa only [List.cons_append, lookupA, if_neg hp] using ih h

theorem lookupA_append_right_none {α : Type} (l1 l2 : List (String × α)) (k : String)
    (h : lookupA l2 k = none) : lookupA (l1 ++ l2) k = lookupA l1 k := by
  induction l1 with
  | nil => simpa using h
  | cons p t ih =>
    by_cases hp : p.1 = k
    · simp [lookupA, hp]
    · simpa only [List.cons_append, lookupA, if_neg hp] using ih

theorem lookupA_removeA_self {α : Type} (l : List (String × α)) (k : String) :
    lookupA (removeA l k) k = none := by
  induction l with
  | nil => rfl
  | cons p t ih =>
    by_cases h : p.1 = k
    · simpa [removeA, List.filter_cons, h] using ih
    · simpa [removeA, List.filter_cons, lookupA, h] using ih

theorem lookupA_removeA_ne {α : Type} (l : List (String × α)) (k k' : String)
    (h : k' ≠ k) : lookupA (removeA l k) k' = lookupA l k' := by
  induction l with
  | nil => rfl
  | cons p t ih =>
    by_cases hp : p.1 = k
    · simpa [removeA, List.filter_cons, lookupA, hp, Ne.symm h] using ih
    · by_cases hk' : p.1 = k'
      · simp [removeA, List.filter_cons, lookupA, hp, hk', h]
      · simpa [removeA, List.filter_cons, lookupA, hp, hk'] using ih

theorem removeA_removeA {α : Type} (l : List (String × α)) (k : String) :
    removeA (removeA l k) k = removeA l k := by
  simp [removeA, List.filter_filter]

theorem lookupA_insertA_self {α : Type} (l : List (String × α)) (k : String) (v : α) :
    lookupA (insertA l k v) k = some v := by
  rw [insertA, lookupA_append_left_none _ _ _ (lookupA_removeA_self l k)]
  simp [lookupA]

theorem lookupA_insertA_ne {α : Type} (l : List (String × α)) (k k' : String) (v : α)
    (h : k' ≠ k) : lookupA (insertA l k v) k' = lookupA l k' := by
  rw [insertA, lookupA_append_right_none _ _ _ (by simp [lookupA, Ne.symm h])]
  exact lookupA_removeA_ne l k k' h

/-! ### Preservation lemmas for the executor steps -/

theorem removeA_eq_of_lookupA_none {α : Type} (l : List (String × α)) (k : String)
    (h : lookupA l k = none) : removeA l k = l := by
  induction l with
  | nil => rfl
  | cons p t ih =>
    by_cases hp : p.1 = k
    · simp [lookupA, hp] at h
    · simp only [lookupA, if_neg hp] at h
      have ht := ih h
      simp only [removeA] at ht ⊢
      rw [List.filter_cons_of_pos (by simpa using hp), ht]

theorem filter_idem {α : Type} (p : α → Bool) (l : List α) :
    (l.filter p).filter p = l.filter p := by
  simp [List.filter_filter]

@[simp] theorem get_session_paths_kernelAvailable (st : ServerState) (sid : String) :
    (get_session_paths st sid).kernelAvailable = st.kernelAvailable := by
  unfold get_session_paths; cases lookupA st.dirs sid <;> rfl

@[simp] theorem get_session_paths_gcsAvailable (st : ServerState) (sid : String) :
    (get_session_paths st sid).gcsAvailable = st.gcsAvailable := by
  unfold get_session_paths; cases lookupA st.dirs sid <;> rfl

@[simp] theorem get_session_paths_kernels (st : ServerState) (sid : String) :
    (get_session_paths st sid).kernels = st.kernels := by
  unfold get_session_paths; cases lookupA st.dirs sid <;> rfl

@[simp] theorem get_session_paths_uuidCounter (st : ServerState) (sid : String) :
    (get_session_paths st sid).uuidCounter = st.uuidCounter := by
  unfold get_session_paths; cases lookupA st.dirs sid <;> rfl

@[simp] theorem sync_kernelAvailable (st : ServerState) (sid : String) :
    (sync_uploads_from_gcs st sid).kernelAvailable = st.kernelAvailable := by
  unfold sync_uploads_from_gcs; split <;> rfl

@[simp] theorem sync_gcsAvailable (st : ServerState) (sid : String) :
    (sync_uploads_from_gcs st sid).gcsAvailable = st.gcsAvailable := by
  unfold sync_uploads_from_gcs; split <;> rfl

@[simp] theorem sync_kernels (st : ServerState) (sid : String) :
    (sync_uploads_from_gcs st sid).kernels = st.kernels := by
  unfold sync_uploads_from_gcs; split <;> rfl

@[simp] theorem sync_uuidCounter (st : ServerState) (sid : String) :
    (sync_uploads_from_gcs st sid).uuidCounter = st.uuidCounter := by
  unfold sync_uploads_from_gcs; split <;> rfl

@[simp] theorem clearExports_kernelAvailable (st : ServerState) (sid : String) :
    (clearExports st sid).kernelAvailable = st.kernelAvailable := rfl

@[simp] theorem clearExports_gcsAvailable (st : ServerState) (sid : String) :
    (clearExports st sid).gcsAvailable = st.gcsAvailable := rfl

@[simp] theorem clearExports_kernels (st : ServerState) (sid : String) :
    (clearExports st sid).kernels = st.kernels := rfl

@[simp] theorem clearExports_uuidCounter (st : ServerState) (sid : String) :
    (clearExports st sid).uuidCounter = st.uuidCounter := rfl

@[simp] theorem getDir_updateDir_self (st : ServerState) (sid : String)
    (f : SessionDir → SessionDir) :
    getDir (updateDir st sid f) sid = f (getDir st sid) := by
  simp [updateDir, setDir, getDir, lookupA_insertA_self]

/-! ### C10 -/

/-- C10: a submission whose code string is empty or whitespace-only makes
`execute_code` return the fixed "No code provided" result dictionary without
submitting anything to the kernel, leaving the kernel process state
unchanged. -/
theorem blank_code_short_circuits (st : KernelProc) (code : String) (is_init : Bool)
    (msgs : List IoMsg) (msg_id : String)
    (h : code = "" ∨ pyStrip code = "") :
    execute_code st code is_init msgs msg_id =
      ({ output := "", error := "No code provided", plots := [], files := some [] },
       st) := by
  unfold execute_code noCodeResult
  rw [if_pos h]

/-- Witness for C10 at the whitespace-only input `"  \n "`. -/
theorem blank_code_short_circuits_witness :
    (pyStrip "  \n " = "") ∧
      execute_code { executed := ["x = 1"] } "  \n " false [] "m1" =
        ({ output := "", error := "No code provided", plots := [], files := some [] },
         { executed := ["x = 1"] }) :=
  ⟨by decide, blank_code_short_circuits _ _ _ _ _ (Or.inr (by decide))⟩

/-! ### C4 -/

/-- C4: the collection loop is insensitive to every message whose
`parent_header.msg_id` differs from the current execution's id — running it
on the raw stream equals running it on the stream restricted to matching
messages, so the assembled output, error and plot buckets contain
contributions only from events correlated with the current submission. -/
theorem collector_discards_foreign_events (msg_id : String) (msgs : List IoMsg)
    (acc : Collected) :
    collectLoop msg_id msgs acc =
      collectLoop msg_id (msgs.filter (fun m => m.parent_msg_id = some msg_id)) acc := by
  induction msgs generalizing acc with
  | nil => rfl
  | cons m rest ih =>
    by_cases hm : m.parent_msg_id = some msg_id
    · by_cases hi : isIdle m
      · simp [collectLoop, List.filter_cons, hm, hi]
      · simp [collectLoop, List.filter_cons, hm, hi, ih]
    · simp [collectLoop, List.filter_cons, hm, ih]

/-! ### C2 -/

/-- C2 counterexample: with the kernel-manager module unavailable (the
guarded import failed, `PersistentKernel is None`), `/execute` does not
return an `ExecutionResult` whose `error` explains the failure — the
`HTTPException(503)` raised by `get_kernel` outside the `try` block escapes
to the transport layer. -/
theorem execute_unavailable_cex :
    (execute { kernelAvailable := false } "s1" "print(1)" 5
        (.completed { output := "2\n", error := "", plots := [] } [] [])).1 =
      .error ⟨503, "Kernel manager not available — check container logs"⟩ := rfl

/-- C2 amended: for every execute request in a state where the interpreter
worker class cannot be constructed (`PersistentKernel is None`), the request
surfaces as a transport-level HTTP 503 rejection, not as an
`ExecutionResult`. -/
theorem execute_unavailable_503 (st : ServerState) (sid code : String) (t : Nat)
    (oc : RunOutcome) (h : st.kernelAvailable = false) :
    (execute st sid code t oc).1 =
      .error ⟨503, "Kernel manager not available — check container logs"⟩ := by
  unfold execute get_kernel
  simp only [clearExports_kernelAvailable, sync_kernelAvailable,
    get_session_paths_kernelAvailable, h]
  rfl

/-- Witness for C2's amended theorem at a concrete state. -/
theorem execute_unavailable_503_witness :
    ({ kernelAvailable := false } : ServerState).kernelAvailable = false ∧
      (execute { kernelAvailable := false } "s1" "x = 1" 7 .timedOut).1 =
        .error ⟨503, "Kernel manager not available — check container logs"⟩ :=
  ⟨rfl, execute_unavailable_503 { kernelAvailable := false } "s1" "x = 1" 7 .timedOut rfl⟩

/-! ### C5 -/

/-- C5 counterexample: `get_kernel` never consults liveness — a registered
but dead kernel (its process crashed) is returned as-is, so a submission can
be run against a dead worker instance. -/
theorem get_kernel_returns_dead_cex :
    get_kernel { kernels := [("s1", ⟨3, ["x"], false⟩)] } "s1" =
      .ok (⟨3, ["x"], false⟩, { kernels := [("s1", ⟨3, ["x"], false⟩)] }) ∧
    (Worker.mk 3 ["x"] false).alive = false :=
  ⟨rfl, rfl⟩

/-- C5 amended: when the kernel manager is importable, `get_kernel` returns
the registered worker whenever one is present — regardless of whether it is
alive — and constructs (and registers) a fresh worker exactly when no entry
exists for the session. -/
theorem get_kernel_spec (st : ServerState) (sid : String)
    (h : st.kernelAvailable = true) :
    (∀ w, lookupA st.kernels sid = some w → get_kernel st sid = .ok (w, st)) ∧
    (lookupA st.kernels sid = none →
      get_kernel st sid = .ok (⟨0, [], true⟩,
        { st with kernels := insertA st.kernels sid ⟨0, [], true⟩ })) := by
  constructor
  · intro w hw
    unfold get_kernel
    rw [if_neg (by simp [h]), hw]
  · intro hw
    unfold get_kernel
    rw [if_neg (by simp [h]), hw]

/-- Witness for C5's amended theorem at a concrete state. -/
theorem get_kernel_spec_witness :
    ({ } : ServerState).kernelAvailable = true ∧
    lookupA ({ } : ServerState).kernels "s1" = none ∧
    get_kernel ({ } : ServerState) "s1" = .ok (⟨0, [], true⟩,
      { kernels := insertA [] "s1" ⟨0, [], true⟩ }) :=
  ⟨rfl, rfl, (get_kernel_spec { } "s1" rfl).2 rfl⟩

/-! ### C3 -/

/-- C3 counterexample: with the blob store unavailable, `/upload` falls back
to an unchecked local save — a file strictly larger than the whole quota is
accepted even though `U + B > N` (usage `U = 0` for a fresh session). -/
theorem upload_quota_cex :
    (upload_file { gcsAvailable := false } "s1" "big.bin" (STORAGE_LIMIT_BYTES + 1)).1 =
      .ok ⟨"success", "big.bin", "uploads/big.bin"⟩ ∧
    get_session_gcs_usage { gcsAvailable := false } "s1" = 0 ∧
    STORAGE_LIMIT_BYTES < 0 + (STORAGE_LIMIT_BYTES + 1) :=
  ⟨rfl, rfl, by omega⟩

/-- C3 amended: when the blob store is reachable, an admission request for
`B` bytes against current usage `U` is accepted iff `U + B ≤ N`
(`N = STORAGE_LIMIT_BYTES`), the check runs before any byte is persisted,
and a rejected request leaves the stored state (hence `U`) unchanged; when
the blob store is unreachable the quota check is skipped entirely. -/
theorem upload_quota_spec (st : ServerState) (sid fname : String) (B : Nat)
    (hg : st.gcsAvailable = true) (hf : fname ≠ "") :
    ((∃ r, (upload_file st sid fname B).1 = .ok r) ↔
      get_session_gcs_usage st sid + B ≤ STORAGE_LIMIT_BYTES) ∧
    (∀ e, (upload_file st sid fname B).1 = .error e →
      (upload_file st sid fname B).2 = st) := by
  unfold upload_file
  rw [if_neg hf, if_neg (by simp [hg])]
  by_cases hq : get_session_gcs_usage st sid + B > STORAGE_LIMIT_BYTES
  · rw [if_pos hq]
    constructor
    · constructor
      · rintro ⟨r, hr⟩; simp at hr
      · intro hle; omega
    · intro e _; rfl
  · rw [if_neg hq]
    constructor
    · constructor
      · intro _; omega
      · intro _; exact ⟨_, rfl⟩
    · intro e he; simp at he

/-- Witness for C3's amended theorem at a concrete accepted upload. -/
theorem upload_quota_spec_witness :
    ("a.csv" ≠ "") ∧
    (((∃ r, (upload_file { } "s1" "a.csv" 10).1 = .ok r) ↔
        get_session_gcs_usage { } "s1" + 10 ≤ STORAGE_LIMIT_BYTES) ∧
      (∀ e, (upload_file { } "s1" "a.csv" 10).1 = .error e →
        (upload_file { } "s1" "a.csv" 10).2 = { })) :=
  ⟨by decide, upload_quota_spec { } "s1" "a.csv" 10 rfl (by decide)⟩

/-! ### C1 -/

theorem timeoutMessage_ne_empty (t : Nat) : timeoutMessage t ≠ "" := by
  intro h
  have hlen := congrArg String.length h
  rw [timeoutMessage, String.length_append, String.length_append] at hlen
  have h1 : "Code execution timed out after ".length = 31 := rfl
  have h2 : " seconds.".length = 9 := rfl
  have h3 : ("" : String).length = 0 := rfl
  rw [h1, h2, h3] at hlen
  omega

/-- C1 counterexample: the timeout result's error message states only that
the deadline was exceeded; no phrasing of "accumulated state was lost"
occurs in it (none of the words "state", "lost", "variable" appear), even
though the kernel restart does discard the accumulated state. -/
theorem timeout_error_lacks_state_loss_cex :
    (execute { } "s1" "while True: pass" 120 .timedOut).1 =
      .ok { status := some "error", output := "",
            error := "Code execution timed out after 120 seconds.",
            plots := [], files := some [] } ∧
    strContains "Code execution timed out after 120 seconds." "state" = false ∧
    strContains "Code execution timed out after 120 seconds." "lost" = false ∧
    strContains "Code execution timed out after 120 seconds." "variable" = false :=
  ⟨rfl, rfl, rfl, rfl⟩

/-- C1 amended: a timed-out submission yields a normal result whose
non-empty `error` states that execution timed out after the deadline (but
does not mention state loss), and the session's kernel is restarted onto a
fresh process generation defining no variables, so the next submission runs
against a clean namespace. -/
theorem execute_timeout_spec (st : ServerState) (sid code : String) (t : Nat)
    (hk : st.kernelAvailable = true) :
    (execute st sid code t .timedOut).1 =
      .ok { status := some "error", output := "", error := timeoutMessage t,
            plots := [], files := some [] } ∧
    timeoutMessage t ≠ "" ∧
    ∃ w', lookupA (execute st sid code t .timedOut).2.kernels sid = some w' ∧
      w'.env = [] ∧
      (∀ w0, lookupA st.kernels sid = some w0 →
        w'.generation = w0.generation + 1) := by
  cases hlk : lookupA st.kernels sid with
  | some w0 =>
    refine ⟨?_, timeoutMessage_ne_empty t, ⟨w0.generation + 1, [], true⟩, ?_, rfl, ?_⟩
    · simp [execute, get_kernel, hk, hlk]
    · simp [execute, get_kernel, hk, hlk, lookupA_insertA_self]
    · intro w1 hw1
      cases hw1
      rfl
  | none =>
    refine ⟨?_, timeoutMessage_ne_empty t, ⟨0 + 1, [], true⟩, ?_, rfl, ?_⟩
    · simp [execute, get_kernel, hk, hlk]
    · simp [execute, get_kernel, hk, hlk, lookupA_insertA_self]
    · intro w1 hw1
      cases hw1

/-- Witness for C1's amended theorem at a concrete state. -/
theorem execute_timeout_spec_witness :
    ({ } : ServerState).kernelAvailable = true ∧
    ((execute { } "s1" "while True: pass" 3 .timedOut).1 =
        .ok { status := some "error", output := "", error := timeoutMessage 3,
              plots := [], files := some [] } ∧
      timeoutMessage 3 ≠ "" ∧
      ∃ w', lookupA (execute { } "s1" "while True: pass" 3 .timedOut).2.kernels "s1" =
          some w' ∧
        w'.env = [] ∧
        (∀ w0, lookupA ({ } : ServerState).kernels "s1" = some w0 →
          w'.generation = w0.generation + 1)) :=
  ⟨rfl, execute_timeout_spec { } "s1" "while True: pass" 3 rfl⟩

/-! ### C8 -/

theorem filter_not_eq_self {α : Type} (l : List α) (p : α → Bool)
    (h : l.filter p = []) : l.filter (fun a => !p a) = l := by
  induction l with
  | nil => rfl
  | cons a t ih =>
    by_cases ha : p a = true
    · simp [List.filter_cons, ha] at h
    · simp only [List.filter_cons] at h ⊢
      rw [if_neg (by simp [ha])] at h
      rw [if_pos (by simp [ha]), ih h]

theorem cleanup_status (st : ServerState) (sid : String) :
    (cleanup_session st sid).1.status = "success" := rfl

theorem cleanup_state (st : ServerState) (sid : String) :
    (cleanup_session st sid).2 = { st with
      kernels := removeA st.kernels sid,
      dirs := removeA st.dirs sid,
      gcsUploads := if st.gcsAvailable then
        st.gcsUploads.filter (fun b => ¬ b.session = sid) else st.gcsUploads,
      gcsOutputs := if st.gcsAvailable then
        st.gcsOutputs.filter (fun b => ¬ b.session = sid) else st.gcsOutputs } := rfl

/-- C8: teardown is idempotent — `/cleanup` always reports success, a second
call reports success again and leaves the state exactly where the first call
left it, and destroying a session with no kernel, no local files and no
remote data is a no-op that still reports success. -/
theorem cleanup_idempotent (st : ServerState) (sid : String) :
    ((cleanup_session st sid).1.status = "success" ∧
     (cleanup_session (cleanup_session st sid).2 sid).1.status = "success" ∧
     (cleanup_session (cleanup_session st sid).2 sid).2 = (cleanup_session st sid).2) ∧
    ((lookupA st.kernels sid = none ∧ lookupA st.dirs sid = none ∧
        st.gcsUploads.filter (fun b => b.session = sid) = [] ∧
        st.gcsOutputs.filter (fun b => b.session = sid) = []) →
      cleanup_session st sid = (⟨"success", "Nothing to clean"⟩, st)) := by
  constructor
  · refine ⟨cleanup_status st sid, cleanup_status _ sid, ?_⟩
    rw [cleanup_state, cleanup_state]
    by_cases hg : st.gcsAvailable <;>
      simp [hg, removeA_removeA, filter_idem, lookupA_removeA_self]
  · rintro ⟨hk, hd, hu, ho⟩
    unfold cleanup_session cleanedMarkers gcsBlobCount
    rw [hk, hd, hu, ho]
    simp [removeA_eq_of_lookupA_none _ _ hk, removeA_eq_of_lookupA_none _ _ hd,
      filter_not_eq_self _ _ hu, filter_not_eq_self _ _ ho]

/-- Witness for C8 at a concrete empty state. -/
theorem cleanup_idempotent_witness :
    cleanup_session ({ } : ServerState) "s1" =
      (⟨"success", "Nothing to clean"⟩, { }) :=
  (cleanup_idempotent { } "s1").2 ⟨rfl, rfl, rfl, rfl⟩

/-! ### C9 -/

theorem lookupA_mem {α : Type} (l : List (String × α)) (k : String) (v : α)
    (h : lookupA l k = some v) : (k, v) ∈ l := by
  induction l with
  | nil => simp [lookupA] at h
  | cons p t ih =>
    rcases p with ⟨a, b⟩
    by_cases hp : a = k
    · subst hp
      simp [lookupA] at h
      subst h
      exact List.mem_cons_self _ _
    · simp only [lookupA, if_neg hp] at h
      exact List.mem_cons_of_mem _ (ih h)

theorem mem_lookupA_of_nodup {α : Type} (l : List (String × α)) (k : String) (v : α)
    (hm : (k, v) ∈ l) (hnd : (l.map Prod.fst).Nodup) : lookupA l k = some v := by
  induction l with
  | nil => simp at hm
  | cons p t ih =>
    rcases List.mem_cons.mp hm with h | h
    · rw [← h]
      simp [lookupA]
    · have hk : k ∈ t.map Prod.fst := List.mem_map.mpr ⟨(k, v), h, rfl⟩
      have hnd2 : p.1 ∉ t.map Prod.fst ∧ (t.map Prod.fst).Nodup := by
        rw [List.map_cons, List.nodup_cons] at hnd
        exact hnd
      have hp : p.1 ≠ k := fun he => hnd2.1 (he ▸ hk)
      simp only [lookupA, if_neg hp]
      exact ih h hnd2.2

theorem foldl_cleanup_not_mem (l : List String) (st : ServerState) (sid : String)
    (h : sid ∉ l) :
    lookupA (l.foldl (fun s x => (cleanup_session s x).2) st).kernels sid =
        lookupA st.kernels sid ∧
      lookupA (l.foldl (fun s x => (cleanup_session s x).2) st).dirs sid =
        lookupA st.dirs sid := by
  induction l generalizing st with
  | nil => exact ⟨rfl, rfl⟩
  | cons x t ih =>
    have hx : sid ≠ x := fun he => h (he ▸ List.mem_cons_self x t)
    have ht : sid ∉ t := fun hm => h (List.mem_cons_of_mem x hm)
    have hstep := ih (cleanup_session st x).2 ht
    rw [List.foldl_cons]
    refine ⟨hstep.1.trans ?_, hstep.2.trans ?_⟩
    · rw [cleanup_state]
      exact lookupA_removeA_ne st.kernels x sid hx
    · rw [cleanup_state]
      exact lookupA_removeA_ne st.dirs x sid hx

theorem foldl_cleanup_mem (l : List String) (st : ServerState) (sid : String)
    (h : sid ∈ l) :
    lookupA (l.foldl (fun s x => (cleanup_session s x).2) st).kernels sid = none ∧
      lookupA (l.foldl (fun s x => (cleanup_session s x).2) st).dirs sid = none := by
  induction l generalizing st with
  | nil => simp at h
  | cons x t ih =>
    by_cases hsx : sid ∈ t
    · rw [List.foldl_cons]
      exact ih _ hsx
    · have hx : sid = x := by
        rcases List.mem_cons.mp h with he | he
        · exact he
        · exact absurd he hsx
      subst hx
      rw [List.foldl_cons]
      have hpres := foldl_cleanup_not_mem t (cleanup_session st sid).2 sid hsx
      refine ⟨hpres.1.trans ?_, hpres.2.trans ?_⟩
      · rw [cleanup_state]
        exact lookupA_removeA_self st.kernels sid
      · rw [cleanup_state]
        exact lookupA_removeA_self st.dirs sid

/-- C9: for a registered session directory, a janitor pass at time `now`
removes the session's kernel registration and directory exactly when its
modification time is older than the 24-hour window, and leaves both
untouched when it was touched within the window. -/
theorem janitor_spec (st : ServerState) (now : Nat) (sid : String) (d : SessionDir)
    (hnd : (st.dirs.map Prod.fst).Nodup)
    (hd : lookupA st.dirs sid = some d) :
    (((d.mtime : Int) < (now : Int) - (MAX_AGE : Int)) →
        lookupA (janitorTick st now).kernels sid = none ∧
        lookupA (janitorTick st now).dirs sid = none) ∧
    (((now : Int) - (MAX_AGE : Int) ≤ (d.mtime : Int)) →
        lookupA (janitorTick st now).kernels sid = lookupA st.kernels sid ∧
        lookupA (janitorTick st now).dirs sid = some d) := by
  constructor
  · intro hstale
    have hmem : sid ∈ staleSessions st now := by
      refine List.mem_map.mpr ⟨(sid, d), ?_, rfl⟩
      refine List.mem_filter.mpr ⟨lookupA_mem st.dirs sid d hd, by simpa using hstale⟩
    exact foldl_cleanup_mem _ st sid hmem
  · intro hfresh
    have hmem : sid ∉ staleSessions st now := by
      intro hmem
      rcases List.mem_map.mp hmem with ⟨p, hp, hfst⟩
      rcases List.mem_filter.mp hp with ⟨hpd, hcond⟩
      have hpis : p = (sid, p.2) := by
        rcases p with ⟨a, b⟩; simp only at hfst; rw [hfst]
      have hlook : lookupA st.dirs sid = some p.2 :=
        mem_lookupA_of_nodup st.dirs sid p.2 (hpis ▸ hpd) hnd
      rw [hd] at hlook
      injection hlook with h2
      rw [h2] at hfresh
      simp only [decide_eq_true_eq] at hcond
      omega
    have := foldl_cleanup_not_mem _ st sid hmem
    exact ⟨this.1, this.2.trans hd⟩

/-- Witness for C9 at a concrete stale session. -/
theorem janitor_spec_witness :
    ((((ServerState.mk true true [("old", ⟨0, [], true⟩)]
          [("old", ⟨[], [], 0⟩)] [] [] 0).dirs.map Prod.fst).Nodup) ∧
      lookupA (ServerState.mk true true [("old", ⟨0, [], true⟩)]
          [("old", ⟨[], [], 0⟩)] [] [] 0).dirs "old" = some ⟨[], [], 0⟩ ∧
      ((((⟨[], [], 0⟩ : SessionDir).mtime : Int) <
        (100000 : Int) - (MAX_AGE : Int)))) ∧
    (lookupA (janitorTick (ServerState.mk true true [("old", ⟨0, [], true⟩)]
        [("old", ⟨[], [], 0⟩)] [] [] 0) 100000).kernels "old" = none ∧
      lookupA (janitorTick (ServerState.mk true true [("old", ⟨0, [], true⟩)]
        [("old", ⟨[], [], 0⟩)] [] [] 0) 100000).dirs "old" = none) :=
  ⟨⟨by decide, rfl, by decide⟩,
    (janitor_spec (ServerState.mk true true [("old", ⟨0, [], true⟩)]
        [("old", ⟨[], [], 0⟩)] [] [] 0) 100000 "old" ⟨[], [], 0⟩
      (by decide) rfl).1 (by decide)⟩

/-! ### C6 -/

theorem run_token_data (n : Nat) : (run_token n).data = List.replicate (n + 1) 'r' := rfl

theorem run_token_no_underscore (n : Nat) : '_' ∉ (run_token n).data := by
  rw [run_token_data]
  intro h
  have := (List.mem_replicate.mp h).2
  exact absurd this (by decide)

theorem delim_eq (t1 : List Char) : ∀ (t2 f1 f2 : List Char), '_' ∉ t1 → '_' ∉ t2 →
    t1 ++ '_' :: f1 = t2 ++ '_' :: f2 → t1 = t2 ∧ f1 = f2 := by
  induction t1 with
  | nil =>
    intro t2 f1 f2 h1 h2 he
    cases t2 with
    | nil => exact ⟨rfl, by simpa using he⟩
    | cons b bs =>
      simp only [List.nil_append, List.cons_append, List.cons.injEq] at he
      apply absurd _ h2
      rw [← he.1]
      exact List.mem_cons_self _ _
  | cons a as ih =>
    intro t2 f1 f2 h1 h2 he
    cases t2 with
    | nil =>
      simp only [List.cons_append, List.nil_append, List.cons.injEq] at he
      apply absurd _ h1
      rw [he.1]
      exact List.mem_cons_self _ _
    | cons b bs =>
      simp only [List.cons_append, List.cons.injEq] at he
      have h1t : '_' ∉ as := fun hm => h1 (List.mem_cons_of_mem _ hm)
      have h2t : '_' ∉ bs := fun hm => h2 (List.mem_cons_of_mem _ hm)
      obtain ⟨ht, hf⟩ := ih bs f1 f2 h1t h2t he.2
      exact ⟨by rw [he.1, ht], hf⟩

theorem exportKey_inj_ctr (sid : String) (j j' : Nat) (f f' : String)
    (hne : j ≠ j') : exportKey sid j f ≠ exportKey sid j' f' := by
  intro he
  have hd := congrArg String.data he
  simp only [exportKey, String.data_append, List.append_assoc] at hd
  have hd2 := List.append_cancel_left (List.append_cancel_left (List.append_cancel_left hd))
  simp only [List.singleton_append] at hd2
  have := (delim_eq (run_token j).data (run_token j').data f.data f'.data
    (run_token_no_underscore j) (run_token_no_underscore j') (by simpa using hd2)).1
  have hlen := congrArg List.length this
  rw [run_token_data, run_token_data, List.length_replicate, List.length_replicate] at hlen
  omega

theorem uploadLoop_names (sid : String) (c : Nat) (fs : List String) :
    (uploadLoop sid c fs).1.map (fun r => r.name) = fs := by
  induction fs generalizing c with
  | nil => rfl
  | cons f rest ih => simp [uploadLoop, ih]

theorem uploadLoop_ctr (sid : String) (c : Nat) (fs : List String) :
    (uploadLoop sid c fs).2.2 = c + fs.length := by
  induction fs generalizing c with
  | nil => simp [uploadLoop]
  | cons f rest ih =>
    simp only [uploadLoop, List.length_cons]
    rw [ih]
    omega

theorem uploadLoop_keys_mem (sid : String) (c : Nat) (fs : List String) :
    ∀ r ∈ (uploadLoop sid c fs).1, ∃ j f, c ≤ j ∧ j < c + fs.length ∧
      r.gcs_path = exportKey sid j f := by
  induction fs generalizing c with
  | nil => intro r hr; simp [uploadLoop] at hr
  | cons g rest ih =>
    intro r hr
    simp only [uploadLoop] at hr
    rcases List.mem_cons.mp hr with h | h
    · refine ⟨c, g, le_refl c, by simp, by rw [h]⟩
    · obtain ⟨j, f, hj1, hj2, hk⟩ := ih (c + 1) r h
      refine ⟨j, f, by omega, ?_, hk⟩
      simp only [List.length_cons]
      omega

theorem uploadLoop_keys_nodup (sid : String) (c : Nat) (fs : List String) :
    ((uploadLoop sid c fs).1.map (fun r => r.gcs_path)).Nodup := by
  induction fs generalizing c with
  | nil => simp [uploadLoop]
  | cons g rest ih =>
    simp only [uploadLoop, List.map_cons, List.nodup_cons]
    constructor
    · intro hmem
      rcases List.mem_map.mp hmem with ⟨r, hr, hkey⟩
      obtain ⟨j, f, hj1, hj2, hk⟩ := uploadLoop_keys_mem sid (c + 1) rest r hr
      rw [hk] at hkey
      exact exportKey_inj_ctr sid j c f g (by omega) hkey
    · exact ih (c + 1)

theorem uploadLoop_keys_append_nodup (sid : String) (c1 c2 : Nat)
    (fs1 fs2 : List String) (h : c1 + fs1.length ≤ c2) :
    (((uploadLoop sid c1 fs1).1 ++ (uploadLoop sid c2 fs2).1).map
      (fun r => r.gcs_path)).Nodup := by
  rw [List.map_append]
  refine List.Nodup.append (uploadLoop_keys_nodup sid c1 fs1)
    (uploadLoop_keys_nodup sid c2 fs2) ?_
  intro k hk1 hk2
  rcases List.mem_map.mp hk1 with ⟨r1, hr1, e1⟩
  rcases List.mem_map.mp hk2 with ⟨r2, hr2, e2⟩
  obtain ⟨j1, f1, ha1, hb1, hp1⟩ := uploadLoop_keys_mem sid c1 fs1 r1 hr1
  obtain ⟨j2, f2, ha2, hb2, hp2⟩ := uploadLoop_keys_mem sid c2 fs2 r2 hr2
  apply exportKey_inj_ctr sid j1 j2 f1 f2 (by omega)
  rw [← hp1, ← hp2, e1, e2]

@[simp] theorem updateDir_kernelAvailable (st : ServerState) (sid : String)
    (f : SessionDir → SessionDir) :
    (updateDir st sid f).kernelAvailable = st.kernelAvailable := rfl

@[simp] theorem updateDir_gcsAvailable (st : ServerState) (sid : String)
    (f : SessionDir → SessionDir) :
    (updateDir st sid f).gcsAvailable = st.gcsAvailable := rfl

@[simp] theorem updateDir_kernels (st : ServerState) (sid : String)
    (f : SessionDir → SessionDir) :
    (updateDir st sid f).kernels = st.kernels := rfl

@[simp] theorem updateDir_uuidCounter (st : ServerState) (sid : String)
    (f : SessionDir → SessionDir) :
    (updateDir st sid f).uuidCounter = st.uuidCounter := rfl

/-- Computation of `/execute` on the completed path with GCS available: the
result is the kernel's dict augmented with the harvested file list, and the
uuid counter advances by one token per exported file. -/
theorem execute_completed_eq (st : ServerState) (sid code : String) (t : Nat)
    (r : ExecResult) (env fs : List String)
    (hk : st.kernelAvailable = true) (hg : st.gcsAvailable = true) :
    (execute st sid code t (.completed r env fs)).1 =
      .ok { r with files := some (uploadLoop sid st.uuidCounter fs).1 } ∧
    (execute st sid code t (.completed r env fs)).2.uuidCounter =
      st.uuidCounter + fs.length ∧
    (execute st sid code t (.completed r env fs)).2.kernelAvailable = true ∧
    (execute st sid code t (.completed r env fs)).2.gcsAvailable = true := by
  by_cases hfs : fs = []
  · subst hfs
    cases hlk : lookupA st.kernels sid <;>
      simp [execute, get_kernel, upload_exports_to_gcs, hk, hg, hlk, uploadLoop]
  · cases hlk : lookupA st.kernels sid <;>
      simp [execute, get_kernel, upload_exports_to_gcs, hk, hg, hlk, hfs,
        uploadLoop_ctr]

/-- C6 counterexample: with remote storage unavailable, the harvest falls
back to local references whose `gcs_path` is the constant
`"local_test_mode"` — the same filename produced in two consecutive
submissions yields identical, non-unique remote keys. -/
theorem export_key_not_unique_cex :
    (execute (ServerState.mk true false [] [] [] [] 0) "s1" "c1" 5
        (.completed { output := "", error := "", plots := [] } [] ["result.csv"])).1 =
      .ok { output := "", error := "", plots := [],
            files := some [⟨"result.csv", "local_test_mode"⟩] } ∧
    (execute (execute (ServerState.mk true false [] [] [] [] 0) "s1" "c1" 5
        (.completed { output := "", error := "", plots := [] } [] ["result.csv"])).2
        "s1" "c2" 5
        (.completed { output := "", error := "", plots := [] } [] ["result.csv"])).1 =
      .ok { output := "", error := "", plots := [],
            files := some [⟨"result.csv", "local_test_mode"⟩] } ∧
    ¬ ((([(⟨"result.csv", "local_test_mode"⟩ : FileRef)] ++
          [(⟨"result.csv", "local_test_mode"⟩ : FileRef)]).map
        (fun f => f.gcs_path)).Nodup) :=
  ⟨rfl, rfl, by decide⟩

/-- C6 amended: with remote storage available, the exports directory is
cleared before each run, every file written during a submission appears in
the result's file list exactly once (the harvested names are exactly the
files written by that run, in order), and all remote keys are distinct —
each file is salted with a fresh per-file token — even across two
consecutive submissions of the same session producing the same filename. -/
theorem export_roundtrip_unique (st : ServerState) (sid code1 code2 : String)
    (t : Nat) (r1 r2 : ExecResult) (e1 e2 fs1 fs2 : List String)
    (hk : st.kernelAvailable = true) (hg : st.gcsAvailable = true) :
    ∃ l1 l2,
      (execute st sid code1 t (.completed r1 e1 fs1)).1 =
        .ok { r1 with files := some l1 } ∧
      (execute (execute st sid code1 t (.completed r1 e1 fs1)).2
          sid code2 t (.completed r2 e2 fs2)).1 =
        .ok { r2 with files := some l2 } ∧
      l1.map (fun f => f.name) = fs1 ∧
      l2.map (fun f => f.name) = fs2 ∧
      ((l1 ++ l2).map (fun f => f.gcs_path)).Nodup := by
  obtain ⟨ha1, hc1, hka1, hga1⟩ := execute_completed_eq st sid code1 t r1 e1 fs1 hk hg
  obtain ⟨ha2, hc2, hka2, hga2⟩ :=
    execute_completed_eq (execute st sid code1 t (.completed r1 e1 fs1)).2
      sid code2 t r2 e2 fs2 hka1 hga1
  refine ⟨(uploadLoop sid st.uuidCounter fs1).1,
    (uploadLoop sid (execute st sid code1 t (.completed r1 e1 fs1)).2.uuidCounter fs2).1,
    ha1, ha2, uploadLoop_names sid _ fs1, uploadLoop_names sid _ fs2, ?_⟩
  rw [hc1]
  exact uploadLoop_keys_append_nodup sid st.uuidCounter
    (st.uuidCounter + fs1.length) fs1 fs2 (le_refl _)

/-- Witness for C6's amended theorem: the same filename exported by two
consecutive submissions of one session. -/
theorem export_roundtrip_unique_witness :
    ({ } : ServerState).kernelAvailable = true ∧
    ({ } : ServerState).gcsAvailable = true ∧
    ∃ l1 l2,
      (execute { } "s1" "c1" 5
          (.completed { output := "", error := "", plots := [] } [] ["result.csv"])).1 =
        .ok { output := "", error := "", plots := [], files := some l1 } ∧
      (execute (execute { } "s1" "c1" 5
          (.completed { output := "", error := "", plots := [] } [] ["result.csv"])).2
          "s1" "c2" 5
          (.completed { output := "", error := "", plots := [] } [] ["result.csv"])).1 =
        .ok { output := "", error := "", plots := [], files := some l2 } ∧
      l1.map (fun f => f.name) = ["result.csv"] ∧
      l2.map (fun f => f.name) = ["result.csv"] ∧
      ((l1 ++ l2).map (fun f => f.gcs_path)).Nodup :=
  ⟨rfl, rfl, export_roundtrip_unique { } "s1" "c1" "c2" 5
    { output := "", error := "", plots := [] } { output := "", error := "", plots := [] }
    [] [] ["result.csv"] ["result.csv"] rfl rfl⟩

/-! ### C7 -/

/-- C7 counterexample: the handler holds no per-session lock, so the
schedule in which both requests to the same session run their first atomic
segment (through handing code to the kernel) before either resumes is a
legal interleaving — and after its first two events both submissions are in
flight against the same worker generation simultaneously. -/
theorem concurrent_submissions_cex :
    isSchedule [⟨1, .seg0⟩, ⟨2, .seg0⟩, ⟨1, .seg1⟩, ⟨2, .seg1⟩] ∧
    bothInFlight ([(⟨1, .seg0⟩ : SchedEv), ⟨2, .seg0⟩, ⟨1, .seg1⟩, ⟨2, .seg1⟩].take 2) :=
  ⟨by decide, by decide⟩

/-- C7 amended: the engine itself enforces no per-session mutual exclusion;
the serialization invariant holds only when the caller serializes — in every
legal schedule in which all of request 1's segments precede all of
request 2's, the two submissions are never simultaneously in flight. -/
theorem serialized_caller_excludes_overlap (tr1 tr2 : List SchedEv)
    (h1 : ∀ e ∈ tr1, e.req = 1) (h2 : ∀ e ∈ tr2, e.req = 2)
    (hs : isSchedule (tr1 ++ tr2)) :
    ∀ k, ¬ bothInFlight ((tr1 ++ tr2).take k) := by
  have ht1 : tr1 = requestSegs 1 := by
    have hf := hs.1
    rw [List.filter_append] at hf
    rw [List.filter_eq_self.mpr (fun e he => by simp [h1 e he])] at hf
    rw [List.filter_eq_nil_iff.mpr (fun e he => by simp [h2 e he])] at hf
    simpa using hf
  have ht2 : tr2 = requestSegs 2 := by
    have hf := hs.2.1
    rw [List.filter_append] at hf
    rw [List.filter_eq_nil_iff.mpr (fun e he => by simp [h1 e he])] at hf
    rw [List.filter_eq_self.mpr (fun e he => by simp [h2 e he])] at hf
    simpa using hf
  subst ht1
  subst ht2
  intro k
  rcases k with _ | _ | _ | _ | n
  · decide
  · decide
  · decide
  · decide
  · rw [List.take_of_length_le (by simp [requestSegs])]
    decide

/-- Witness for C7's amended theorem on the caller-serialized schedule. -/
theorem serialized_caller_excludes_overlap_witness :
    ((∀ e ∈ requestSegs 1, e.req = 1) ∧ (∀ e ∈ requestSegs 2, e.req = 2) ∧
      isSchedule (requestSegs 1 ++ requestSegs 2)) ∧
    ¬ bothInFlight ((requestSegs 1 ++ requestSegs 2).take 2) :=
  ⟨⟨by decide, by decide, by decide⟩,
    serialized_caller_excludes_overlap (requestSegs 1) (requestSegs 2)
      (by decide) (by decide) (by decide) 2⟩

end Spec2Proof
